import Mathlib

/-!
Verification of `logic/auto_measurement_logic.py` (qudi automatic
measurement scripts).  The Python module is shallowly embedded below:
numpy float triplets become exact rational 3-vectors, Python dicts become
association lists, the wall clock becomes an explicit rational parameter,
and fallible operations return `Except` values carrying the Python
exception kind.  All definitions are translated from the source file.
-/

namespace AutoMeas

/-- Python exception kinds raised by the embedded code. -/
inductive PyExc
  | valueError (msg : String)
  | attributeError (msg : String)
  | indexError
  | zeroDivisionError
deriving DecidableEq, Repr

deriving instance DecidableEq for Except

/-- Exact model of a numpy float triplet (`np.zeros(3)` and friends). -/
structure Vec3 where
  x : ℚ
  y : ℚ
  z : ℚ
deriving DecidableEq, Repr

namespace Vec3

def add (a b : Vec3) : Vec3 := ⟨a.x + b.x, a.y + b.y, a.z + b.z⟩

def sub (a b : Vec3) : Vec3 := ⟨a.x - b.x, a.y - b.y, a.z - b.z⟩

def zero : Vec3 := ⟨0, 0, 0⟩

/-- Conversion of a length-3 Python sequence to a vector, mirroring
`np.array(seq, dtype=float)` after the `len(seq) == 3` check. -/
def ofList (l : List ℚ) (h : l.length = 3) : Vec3 :=
  ⟨l.get ⟨0, by omega⟩, l.get ⟨1, by omega⟩, l.get ⟨2, by omega⟩⟩

end Vec3

/-- Embedding of the `NV` class state: the Python instance attributes
`_anchor`, `_shift`, `label`, `odmr_freq`, `rabi_period`, `t2`, `t1`
(source lines 31-41).  Optional calibration values are `Option` since
`kwargs.get` yields `None` when absent. -/
structure NV where
  anchor : Vec3
  shift : Vec3
  label : String
  odmr_freq : Option ℚ
  rabi_period : Option ℚ
  t2 : Option ℚ
  t1 : Option ℚ
deriving DecidableEq, Repr

namespace NV

/-- The constructor call `NV(anchor=position, label=label)` as issued by
`add_nv` (line 232): shift takes its default `(0, 0, 0)` and every
calibration value is `None`. -/
def mk0 (anchor : Vec3) (label : String) : NV :=
  { anchor := anchor, shift := Vec3.zero, label := label,
    odmr_freq := none, rabi_period := none, t2 := none, t1 := none }

/-- Property getter `NV.position` (lines 43-45): `self._anchor + self._shift`,
computed afresh from the two stored attributes on every read. -/
def position (nv : NV) : Vec3 := nv.anchor.add nv.shift

/-- Property setter `NV.position` (lines 47-53): a length-3 value sets
`_shift = np.array(new_pos) - _anchor`; any other length raises
`ValueError` and leaves the instance unchanged. -/
def setPosition (nv : NV) (new_pos : List ℚ) : Except PyExc NV :=
  if h : new_pos.length = 3 then
    .ok { nv with shift := (Vec3.ofList new_pos h).sub nv.anchor }
  else
    .error (.valueError "Position must be a triplet of float or int values.")

/-- Property setter `NV.shift` (lines 71-77). -/
def setShift (nv : NV) (new_shift : List ℚ) : Except PyExc NV :=
  if h : new_shift.length = 3 then
    .ok { nv with shift := Vec3.ofList new_shift h }
  else
    .error (.valueError "Sample shift must be a triplet of float or int values.")

/-- Names of the attributes ever assigned on an `NV` instance; consulted
by the embedded attribute lookup.  `_position` is notably absent: no
statement in the class ever writes it. -/
def attrNames : List String :=
  ["_anchor", "_shift", "label", "odmr_freq", "rabi_period", "t2", "t1"]

/-- Embedded read of `self._position`: the attribute is looked up among
the attributes the class ever defines and, being absent, the read raises
`AttributeError` exactly as CPython would. -/
def readUnderscorePosition (nv : NV) : Except PyExc Vec3 :=
  if ("_position" ∈ attrNames) then .ok nv.position
  else .error (.attributeError "NV object has no attribute _position")

/-- Property getter `NV.x` (lines 79-81): `self.position[0]`. -/
def getX (nv : NV) : Except PyExc ℚ := .ok nv.position.x

/-- Property getter `NV.y` (lines 88-90): `self._position[1]`, reading the
never-assigned attribute `_position`. -/
def getY (nv : NV) : Except PyExc ℚ := do
  let p ← nv.readUnderscorePosition
  pure p.y

/-- Property getter `NV.z` (lines 97-99): `self._position[2]`. -/
def getZ (nv : NV) : Except PyExc ℚ := do
  let p ← nv.readUnderscorePosition
  pure p.z

end NV

/-! Registry methods of `AutoMeasurementLogic`.  The registry state is the
`nv_list` status variable, a Python list of `NV` instances. -/

/-- Deletion of the first list entry whose label equals `label`, as the
`for i, nv in enumerate(...)` loop with `del self.nv_list[i]` and `break`
performs inside `add_nv` (lines 226-231). -/
def eraseFirstLabel (label : String) : List NV → List NV
  | [] => []
  | nv :: rest => if nv.label = label then rest else nv :: eraseFirstLabel label rest

/-- Method `add_nv` (lines 223-233) with an explicit position: the first
entry carrying the same label, if any, is deleted (with a log warning),
then a fresh `NV` anchored at `position` is appended. -/
def add_nv (nv_list : List NV) (label : String) (position : Vec3) : List NV :=
  eraseFirstLabel label nv_list ++ [NV.mk0 position label]

/-- Number of registry entries carrying a given label. -/
def countLabel (label : String) (nv_list : List NV) : ℕ :=
  (nv_list.filter (fun nv => nv.label = label)).length

/-- Ways of designating a registry entry: a Python `str` label or an `int`
index. -/
inductive NVKey
  | byLabel (s : String)
  | byIdx (i : ℤ)
deriving DecidableEq, Repr

/-- Index of the first entry whose label is `label`, if any. -/
def findLabelIdx (label : String) : List NV → Option ℕ
  | [] => none
  | nv :: rest =>
    if nv.label = label then some 0
    else (findLabelIdx label rest).map (fun i => i + 1)

/-- First entry whose label is `label`, together with its position: the
`for i, nv_inst in enumerate(...)` search loop with `break` on a match. -/
def findLabel (label : String) : List NV → Option (ℕ × NV)
  | [] => none
  | nv :: rest =>
    if nv.label = label then some (0, nv)
    else (findLabel label rest).map (fun p => (p.1 + 1, p.2))

/-- Method `remove_nv` (lines 235-244).  A string argument is first
translated to the index of the first matching entry; if no entry matches,
the argument stays a string and the integer branch is skipped, leaving the
list untouched.  An integer is acted on only when `0 <= index < len`. -/
def remove_nv (nv_list : List NV) (index : NVKey) : List NV :=
  match index with
  | .byLabel s =>
    match findLabelIdx s nv_list with
    | some i => nv_list.eraseIdx i
    | none => nv_list
  | .byIdx i =>
    if 0 ≤ i ∧ i < (nv_list.length : ℤ) then nv_list.eraseIdx i.toNat
    else nv_list

/-- Method `set_sample_shift` (lines 246-250): every registered target
gets its shift overwritten by the given vector. -/
def set_sample_shift (nv_list : List NV) (shift : Vec3) : List NV :=
  nv_list.map (fun nv => { nv with shift := shift })

/-- Method `add_sample_shift` (lines 252-256): the given vector is added
to every registered target shift. -/
def add_sample_shift (nv_list : List NV) (shift : Vec3) : List NV :=
  nv_list.map (fun nv => { nv with shift := nv.shift.add shift })

/-! Experiment recipes.  A Python recipe dict becomes an association list
from parameter name to a dynamically typed value, preserving insertion
order the way CPython dicts do. -/

/-- Dynamically typed recipe parameter value. -/
inductive PVal
  | num (q : ℚ)
  | str (s : String)
  | bool (b : Bool)
  | pynone
deriving DecidableEq, Repr

/-- Ordered dictionary over string keys. -/
abbrev PDict := List (String × PVal)

/-- Membership test `key in dict`. -/
def dContains (d : PDict) (k : String) : Bool := d.any (fun kv => kv.1 = k)

/-- Assignment `dict[key] = value`: an existing key is updated in place, a
new key is appended, matching CPython insertion-order semantics. -/
def dSet (d : PDict) (k : String) (v : PVal) : PDict :=
  match d with
  | [] => [(k, v)]
  | (k', v') :: rest => if k' = k then (k, v) :: rest else (k', v') :: dSet rest k v

/-- Override merge loop shared by `measure_odmr` (356-358), `measure_rabi`
(466-468), `measure_hahnecho` (506-508), `measure_xy8` (549-551) and
`measure_xy8_random` (593-595): each caller-supplied key is written into
the stored recipe only when the (current) recipe already contains it. -/
def recipe_merge (recipe : PDict) (kwargs : PDict) : PDict :=
  kwargs.foldl (fun r kv => if dContains r kv.1 then dSet r kv.1 kv.2 else r) recipe

/-- Override merge of `measure_pulsedodmr` (lines 425-427), embedded as
written: the membership test runs against the `odmr` recipe while the
assignment mutates the `pulsedODMR` recipe. -/
def pulsedodmr_merge (odmr pulsedODMR : PDict) (kwargs : PDict) : PDict :=
  kwargs.foldl (fun p kv => if dContains odmr kv.1 then dSet p kv.1 kv.2 else p) pulsedODMR

/-- Default `odmr` status variable (lines 130-131). -/
def odmr_default : PDict :=
  [("runtime", .num 60), ("fit", .str "Lorentzian dip"), ("start", .num 2650000000),
   ("stop", .num 3150000000), ("step", .num 2000000), ("power", .num (-20))]

/-- Default `rabi` status variable (lines 132-133). -/
def rabi_default : PDict :=
  [("runtime", .num 60), ("fit", .str "sine_decay"), ("start", .num (1/100000000)),
   ("step", .num (1/100000000)), ("points", .num 50)]

/-- Default `hahnecho` status variable (lines 134-135). -/
def hahnecho_default : PDict :=
  [("runtime", .num 600), ("fit", .pynone), ("start", .num (1/1000000)),
   ("step", .num (1/1000000)), ("points", .num 20), ("alternating", .bool true)]

/-- Default `xy8` status variable (lines 136-137). -/
def xy8_default : PDict :=
  [("runtime", .num 600), ("fit", .pynone), ("start", .num (1/2000000)),
   ("order", .num 4), ("step", .num (1/100000000)), ("points", .num 40),
   ("alternating", .bool true)]

/-- Default `pulsedODMR` status variable (lines 140-141). -/
def pulsedODMR_default : PDict :=
  [("runtime", .num 60), ("freq_start", .num 2779000000), ("freq_step", .num 200000),
   ("num_of_points", .num 100), ("fit", .str "N15")]

/-! Accumulation loop.  Every `measure_*` pulsed method runs the same
wall-clock loop (e.g. `measure_rabi` lines 485-494):

    start_time = time.time()
    last_refocus = time.time()
    while time.time()-start_time < runtime:
        if self.refocus_interval > 0:
            current_time = time.time()
            if current_time-last_refocus >= self.refocus_interval:
                self.refocus()
                last_refocus = time.time()
                start_time += last_refocus-current_time
        time.sleep(0.5)

The wall clock is made explicit: `now` is the value the next `time.time()`
call returns, a refocus advances it by an externally supplied duration,
and each `time.sleep(0.5)` advances it by one poll tick. -/

/-- State of the accumulation loop clock bookkeeping. -/
structure LoopState where
  now : ℚ
  start_time : ℚ
  last_refocus : ℚ
  refocus_count : ℕ
deriving DecidableEq, Repr

/-- Poll tick of the accumulation loop, the `time.sleep(0.5)` cadence. -/
def tick : ℚ := 1/2

/-- The refocus branch of the loop body: `current_time` is read, the
refocus cycle consumes `dur` of wall-clock time, `last_refocus` is re-read
after it, and `start_time` is advanced by `last_refocus - current_time`. -/
def refocus_update (s : LoopState) (dur : ℚ) : LoopState :=
  let current_time := s.now
  let resume := current_time + dur
  { now := resume,
    start_time := s.start_time + (resume - current_time),
    last_refocus := resume,
    refocus_count := s.refocus_count + 1 }

/-- One pass of the loop body before the sleep: when `refocus_interval`
is positive and a refocus is due, run the refocus branch, else do
nothing.  `refocusDur n` is the wall-clock duration of the n-th refocus
cycle. -/
def loop_body (refocus_interval : ℚ) (refocusDur : ℕ → ℚ) (s : LoopState) : LoopState :=
  if 0 < refocus_interval ∧ refocus_interval ≤ s.now - s.last_refocus then
    refocus_update s (refocusDur s.refocus_count)
  else s

/-- The `time.sleep(0.5)` at the end of each loop pass. -/
def tickAdvance (s : LoopState) : LoopState := { s with now := s.now + tick }

/-- The accumulation loop, fuel-bounded: while `now - start_time` is below
`runtime`, run the loop body and sleep one poll tick. -/
def loop_run (refocus_interval runtime : ℚ) (refocusDur : ℕ → ℚ) :
    ℕ → LoopState → LoopState
  | 0, s => s
  | fuel + 1, s =>
    if s.now - s.start_time < runtime then
      loop_run refocus_interval runtime refocusDur fuel
        (tickAdvance (loop_body refocus_interval refocusDur s))
    else s

/-- Initial loop state: `start_time` and `last_refocus` are both read off
the clock just before the loop starts. -/
def loop_init (t0 : ℚ) : LoopState :=
  { now := t0, start_time := t0, last_refocus := t0, refocus_count := 0 }

/-! The characterization pipeline `characterize_nv` (lines 261-308). -/

/-- Fit results supplied by the external fitting subsystem: the Rabi fit
parameter `frequency` and the Hahn-echo fit parameter `lifetime`. -/
structure FitOracle where
  rabi_frequency : ℚ
  hahn_lifetime : ℚ
deriving DecidableEq, Repr

/-- Observable actions `characterize_nv` performs, in order. -/
inductive Event
  | logError (msg : String)
  | moveTo (p : Vec3)
  | refocus
  | runRabi (label : String)
  | setSharedRabiPeriod (v : ℚ)
  | runHahn (label : String)
deriving DecidableEq, Repr

/-- Outcome of a `characterize_nv` call. -/
inductive CharOutcome
  | ok (rabi_frequency hahn_lifetime : ℚ)
  | loggedError
  | raised (e : PyExc)
deriving DecidableEq, Repr

/-- Orchestrator state threaded through `characterize_nv`: the registry
and the shared `rabi_period` generation parameter. -/
structure LogicState where
  nv_list : List NV
  gen_rabi_period : Option ℚ
deriving DecidableEq, Repr

/-- Python list subscript `lst[i]` on an `int`: a negative index counts
from the end, anything out of range raises `IndexError`. -/
def pyGet (lst : List NV) (i : ℤ) : Option NV :=
  let j : ℤ := if i < 0 then i + lst.length else i
  if h : 0 ≤ j ∧ j < (lst.length : ℤ) then
    some (lst.get ⟨j.toNat, by omega⟩)
  else none

/-- Normalized list position a Python subscript refers to. -/
def pyPos (len : ℕ) (i : ℤ) : ℕ :=
  (if i < 0 then i + len else i).toNat

/-- Body of `characterize_nv` after target resolution (lines 278-308):
move to the target, refocus, run Rabi and store `1/frequency` in the
target and in the shared `rabi_period` parameter, refocus again, run
Hahn-echo and store its `lifetime` in the target.  `i` is the resolved
registry position of `nv` and `label` the effective save-tag label.
A zero Rabi fit frequency makes `1/rabi_result[frequency]` raise
`ZeroDivisionError`. -/
def characterize_go (st : LogicState) (i : ℕ) (nv : NV) (label : String)
    (oracle : FitOracle) : LogicState × List Event × CharOutcome :=
  if oracle.rabi_frequency = 0 then
    (st, [.moveTo nv.position, .refocus, .runRabi label],
     .raised .zeroDivisionError)
  else
    let rp := 1 / oracle.rabi_frequency
    let nv1 := { nv with rabi_period := some rp }
    let nv2 := { nv1 with t2 := some oracle.hahn_lifetime }
    ({ nv_list := st.nv_list.set i nv2, gen_rabi_period := some rp },
     [.moveTo nv.position, .refocus, .runRabi label, .setSharedRabiPeriod rp,
      .refocus, .runHahn label],
     .ok oracle.rabi_frequency oracle.hahn_lifetime)

/-- Method `characterize_nv` (lines 261-308).  An `int` key indexes the
registry directly (so an out-of-range index raises `IndexError` before
anything is logged or touched); a `str` key is looked up linearly and a
miss is logged and returned from with no further action. -/
def characterize_nv (st : LogicState) (key : NVKey) (oracle : FitOracle) :
    LogicState × List Event × CharOutcome :=
  match key with
  | .byIdx i =>
    match pyGet st.nv_list i with
    | none => (st, [], .raised .indexError)
    | some nv =>
      let label := if nv.label ≠ "" then nv.label else toString i
      characterize_go st (pyPos st.nv_list.length i) nv label oracle
  | .byLabel s =>
    match findLabel s st.nv_list with
    | none => (st, [.logError "NV with label not found."], .loggedError)
    | some (i, nv) => characterize_go st i nv s oracle

/-! Theorems. -/

theorem vec3_add_zero (a : Vec3) : a.add Vec3.zero = a := by
  cases a; simp [Vec3.add, Vec3.zero]

theorem vec3_add_assoc (a b c : Vec3) : (a.add b).add c = a.add (b.add c) := by
  cases a; cases b; cases c; simp [Vec3.add]; refine ⟨by ring, by ring, by ring⟩

theorem vec3_add_sub_cancel (a b : Vec3) : a.add (b.sub a) = b := by
  cases a; cases b; simp [Vec3.add, Vec3.sub]

/-- C1: across a refocus cycle inside an accumulation loop, the elapsed
time `now - start_time` observed at the instant of resume equals the
elapsed time observed at the instant of the pause, because `start_time`
is advanced by exactly the wall-clock duration the refocus consumed. -/
theorem refocus_preserves_elapsed (s : LoopState) (dur : ℚ) :
    (refocus_update s dur).now - (refocus_update s dur).start_time
        = s.now - s.start_time ∧
    (refocus_update s dur).start_time = s.start_time + dur ∧
    (refocus_update s dur).now = (refocus_update s dur).last_refocus := by
  refine ⟨by simp [refocus_update], by simp [refocus_update], by simp [refocus_update]⟩

/-- C3: the effective position of a target is always `anchor + shift`:
a freshly created target has zero shift so its position is its anchor;
after a per-target shift update the position is the anchor plus the new
shift; and a global `add_sample_shift` moves every effective position by
exactly the given vector while keeping the `anchor + shift` reading. -/
theorem effective_position_invariant :
    (∀ (a : Vec3) (l : String), (NV.mk0 a l).position = a) ∧
    (∀ (nv : NV), nv.position = nv.anchor.add nv.shift) ∧
    (∀ (nv nv' : NV) (s : List ℚ) (h : s.length = 3), nv.setShift s = .ok nv' →
        nv'.anchor = nv.anchor ∧ nv'.position = nv.anchor.add (Vec3.ofList s h)) ∧
    (∀ (lst : List NV) (v : Vec3),
        (add_sample_shift lst v).map NV.position
          = lst.map (fun nv => nv.position.add v)) := by
  refine ⟨?_, ?_, ?_, ?_⟩
  · intro a l
    simp [NV.mk0, NV.position, vec3_add_zero]
  · intro nv; rfl
  · intro nv nv' s h hok
    simp only [NV.setShift, dif_pos h] at hok
    cases hok
    exact ⟨rfl, rfl⟩
  · intro lst v
    induction lst with
    | nil => rfl
    | cons nv rest ih =>
      simp only [add_sample_shift, List.map_cons, List.cons.injEq]
      refine ⟨by simp [NV.position, vec3_add_assoc], ?_⟩
      simpa [add_sample_shift] using ih

/-- Witness for C3 at a concrete target list. -/
theorem effective_position_invariant_witness :
    (NV.mk0 ⟨1, 2, 3⟩ "a").position = ⟨1, 2, 3⟩ ∧
    (NV.mk0 ⟨1, 2, 3⟩ "a").setShift [4, 4, 4]
        = .ok { NV.mk0 ⟨1, 2, 3⟩ "a" with shift := ⟨4, 4, 4⟩ } ∧
    ({ NV.mk0 ⟨1, 2, 3⟩ "a" with shift := ⟨4, 4, 4⟩ } : NV).position
        = Vec3.add ⟨1, 2, 3⟩ (Vec3.ofList [4, 4, 4] (by decide)) ∧
    (add_sample_shift [NV.mk0 ⟨1, 2, 3⟩ "a"] ⟨1, 0, 0⟩).map NV.position
      = [NV.mk0 ⟨1, 2, 3⟩ "a"].map (fun nv => nv.position.add ⟨1, 0, 0⟩) := by
  have hset : (NV.mk0 ⟨1, 2, 3⟩ "a").setShift [4, 4, 4]
      = .ok { NV.mk0 ⟨1, 2, 3⟩ "a" with shift := ⟨4, 4, 4⟩ } := by
    simp [NV.setShift, NV.mk0, Vec3.ofList]
  refine ⟨effective_position_invariant.1 ⟨1, 2, 3⟩ "a", hset, ?_,
    effective_position_invariant.2.2.2 [NV.mk0 ⟨1, 2, 3⟩ "a"] ⟨1, 0, 0⟩⟩
  exact (effective_position_invariant.2.2.1 (NV.mk0 ⟨1, 2, 3⟩ "a")
    { NV.mk0 ⟨1, 2, 3⟩ "a" with shift := ⟨4, 4, 4⟩ } [4, 4, 4] (by decide) hset).2

/-- C9: reading `x` returns the first component of `anchor + shift`, but
reading `y` or `z` raises `AttributeError` on every target, because those
getters dereference the never-assigned attribute `_position`. -/
theorem xyz_getter_behaviour (nv : NV) :
    nv.getX = .ok (nv.anchor.add nv.shift).x ∧
    nv.getY = .error (.attributeError "NV object has no attribute _position") ∧
    nv.getZ = .error (.attributeError "NV object has no attribute _position") := by
  refine ⟨rfl, ?_, ?_⟩ <;>
    simp [NV.getY, NV.getZ, NV.readUnderscorePosition, NV.attrNames]

/-- C10: setting the position property to a length-3 value keeps the
anchor, stores `p - anchor` as the shift, and makes an immediate read of
the position return exactly `p`; a value of any other length raises
`ValueError` and changes nothing. -/
theorem position_setter_roundtrip :
    (∀ (nv nv' : NV) (p : List ℚ) (h : p.length = 3), nv.setPosition p = .ok nv' →
        nv'.anchor = nv.anchor ∧ nv'.shift = (Vec3.ofList p h).sub nv.anchor ∧
        nv'.position = Vec3.ofList p h) ∧
    (∀ (nv : NV) (p : List ℚ), p.length ≠ 3 →
        nv.setPosition p
          = .error (.valueError "Position must be a triplet of float or int values.")) := by
  constructor
  · intro nv nv' p h hok
    simp only [NV.setPosition, dif_pos h] at hok
    cases hok
    exact ⟨rfl, rfl, by simp [NV.position, vec3_add_sub_cancel]⟩
  · intro nv p h
    simp [NV.setPosition, h]

/-- Witness for C10 at a concrete target and position. -/
theorem position_setter_roundtrip_witness :
    ((NV.mk0 ⟨1, 2, 3⟩ "a").setPosition [5, 5, 5]
        = .ok { NV.mk0 ⟨1, 2, 3⟩ "a" with shift := ⟨4, 3, 2⟩ }) ∧
    ({ NV.mk0 ⟨1, 2, 3⟩ "a" with shift := ⟨4, 3, 2⟩ } : NV).position = ⟨5, 5, 5⟩ ∧
    (NV.mk0 ⟨1, 2, 3⟩ "a").setPosition [5, 5]
        = .error (.valueError "Position must be a triplet of float or int values.") := by
  have hset : (NV.mk0 ⟨1, 2, 3⟩ "a").setPosition [5, 5, 5]
      = .ok { NV.mk0 ⟨1, 2, 3⟩ "a" with shift := ⟨4, 3, 2⟩ } := by
    simp [NV.setPosition, NV.mk0, Vec3.ofList, Vec3.sub, Vec3.zero]
    norm_num
  refine ⟨hset, ?_, ?_⟩
  · exact (position_setter_roundtrip.1 (NV.mk0 ⟨1, 2, 3⟩ "a")
      { NV.mk0 ⟨1, 2, 3⟩ "a" with shift := ⟨4, 3, 2⟩ } [5, 5, 5] (by decide)
      hset).2.2
  · exact position_setter_roundtrip.2 (NV.mk0 ⟨1, 2, 3⟩ "a") [5, 5] (by decide)

theorem findLabelIdx_eq_none (s : String) (lst : List NV)
    (h : ∀ nv ∈ lst, nv.label ≠ s) : findLabelIdx s lst = none := by
  induction lst with
  | nil => rfl
  | cons nv rest ih =>
    simp only [findLabelIdx, if_neg (h nv (by simp))]
    rw [ih (fun x hx => h x (by simp [hx]))]
    rfl

/-- C8: removing a target by a label that matches no registered target
leaves the registry unchanged (and the embedded method is total, so no
exception is raised). -/
theorem remove_nv_absent_label (lst : List NV) (s : String)
    (h : ∀ nv ∈ lst, nv.label ≠ s) :
    remove_nv lst (.byLabel s) = lst := by
  simp [remove_nv, findLabelIdx_eq_none s lst h]

/-- Witness for C8 on a one-entry registry and a foreign label. -/
theorem remove_nv_absent_label_witness :
    (∀ nv ∈ [NV.mk0 ⟨1, 2, 3⟩ "a"], nv.label ≠ "b") ∧
    remove_nv [NV.mk0 ⟨1, 2, 3⟩ "a"] (.byLabel "b") = [NV.mk0 ⟨1, 2, 3⟩ "a"] :=
  ⟨by decide, remove_nv_absent_label [NV.mk0 ⟨1, 2, 3⟩ "a"] "b" (by decide)⟩

theorem countLabel_eraseFirst (s : String) (lst : List NV)
    (h : countLabel s lst ≤ 1) : countLabel s (eraseFirstLabel s lst) = 0 := by
  induction lst with
  | nil => rfl
  | cons nv rest ih =>
    by_cases hl : nv.label = s
    · simp only [countLabel, eraseFirstLabel, if_pos hl] at h ⊢
      rw [List.filter_cons_of_pos (by simp [hl])] at h
      simp only [List.length_cons] at h
      omega
    · simp only [countLabel, eraseFirstLabel, if_neg hl] at h ⊢
      rw [List.filter_cons_of_neg (by simp [hl])] at h ⊢
      exact ih h

theorem countLabel_append (s : String) (a b : List NV) :
    countLabel s (a ++ b) = countLabel s a + countLabel s b := by
  simp [countLabel, List.filter_append]

/-- C6: when the registry holds at most one target per label, registering
a target under an existing label deletes the prior entry and appends the
new one, leaving exactly one entry with that label. -/
theorem add_nv_label_unique (lst : List NV) (label : String) (pos : Vec3)
    (h : countLabel label lst ≤ 1) :
    countLabel label (add_nv lst label pos) = 1 ∧
    add_nv lst label pos = eraseFirstLabel label lst ++ [NV.mk0 pos label] := by
  refine ⟨?_, rfl⟩
  rw [add_nv, countLabel_append, countLabel_eraseFirst label lst h]
  simp [countLabel, NV.mk0]

/-- Witness for C6 on a registry already holding the label. -/
theorem add_nv_label_unique_witness :
    countLabel "a" [NV.mk0 ⟨1, 2, 3⟩ "a", NV.mk0 ⟨4, 5, 6⟩ "b"] ≤ 1 ∧
    countLabel "a" (add_nv [NV.mk0 ⟨1, 2, 3⟩ "a", NV.mk0 ⟨4, 5, 6⟩ "b"] "a" ⟨7, 8, 9⟩) = 1 :=
  ⟨by decide,
   (add_nv_label_unique [NV.mk0 ⟨1, 2, 3⟩ "a", NV.mk0 ⟨4, 5, 6⟩ "b"] "a" ⟨7, 8, 9⟩
      (by decide)).1⟩

/-- C4 names a property of all six override merges, but the merge of
`measure_pulsedodmr` checks caller keys against the `odmr` recipe while
writing into the `pulsedODMR` recipe: the caller key `start`, absent from
the stored `pulsedODMR` recipe, is nevertheless appended to it, so the
stored recipe is mutated by an unrecognized key. -/
theorem pulsedodmr_override_mutates_recipe :
    dContains pulsedODMR_default "start" = false ∧
    dContains odmr_default "start" = true ∧
    pulsedodmr_merge odmr_default pulsedODMR_default [("start", .num 5)]
      = pulsedODMR_default ++ [("start", .num 5)] ∧
    pulsedodmr_merge odmr_default pulsedODMR_default [("start", .num 5)]
      ≠ pulsedODMR_default := by
  have hmerge : pulsedodmr_merge odmr_default pulsedODMR_default [("start", .num 5)]
      = pulsedODMR_default ++ [("start", .num 5)] := rfl
  refine ⟨rfl, rfl, hmerge, ?_⟩
  rw [hmerge]
  intro hcontra
  have hlen := congrArg List.length hcontra
  simp at hlen

theorem refocus_update_elapsed (s : LoopState) (dur : ℚ) :
    (refocus_update s dur).now - (refocus_update s dur).start_time
      = s.now - s.start_time := by
  simp [refocus_update]

theorem loop_body_elapsed (interval : ℚ) (d : ℕ → ℚ) (s : LoopState) :
    (loop_body interval d s).now - (loop_body interval d s).start_time
      = s.now - s.start_time := by
  rw [loop_body]
  split
  · exact refocus_update_elapsed s (d s.refocus_count)
  · rfl

theorem loop_body_nonpos (interval : ℚ) (d : ℕ → ℚ) (s : LoopState)
    (hI : interval ≤ 0) : loop_body interval d s = s := by
  rw [loop_body, if_neg]
  rintro ⟨h1, -⟩
  linarith

theorem loop_run_nonpos_frame (interval runtime : ℚ) (d : ℕ → ℚ) (hI : interval ≤ 0) :
    ∀ (fuel : ℕ) (s : LoopState),
      (loop_run interval runtime d fuel s).refocus_count = s.refocus_count ∧
      (loop_run interval runtime d fuel s).start_time = s.start_time := by
  intro fuel
  induction fuel with
  | zero => intro s; exact ⟨rfl, rfl⟩
  | succ n ih =>
    intro s
    rw [loop_run]
    by_cases hc : s.now - s.start_time < runtime
    · rw [if_pos hc, loop_body_nonpos interval d s hI]
      exact ih (tickAdvance s)
    · rw [if_neg hc]
      exact ⟨rfl, rfl⟩

theorem loop_run_elapsed_ub (interval runtime : ℚ) (d : ℕ → ℚ) :
    ∀ (fuel : ℕ) (s : LoopState), s.now - s.start_time < runtime + tick →
      (loop_run interval runtime d fuel s).now
        - (loop_run interval runtime d fuel s).start_time < runtime + tick := by
  intro fuel
  induction fuel with
  | zero => intro s h; exact h
  | succ n ih =>
    intro s h
    rw [loop_run]
    by_cases hc : s.now - s.start_time < runtime
    · rw [if_pos hc]
      apply ih
      have hb := loop_body_elapsed interval d s
      simp only [tickAdvance]
      simp only [tick] at *
      linarith
    · rw [if_neg hc]
      exact h

theorem loop_run_nonpos_lb (interval runtime : ℚ) (d : ℕ → ℚ) (hI : interval ≤ 0) :
    ∀ (fuel : ℕ) (s : LoopState),
      runtime ≤ s.now - s.start_time + (fuel : ℚ) * tick →
      runtime ≤ (loop_run interval runtime d fuel s).now
        - (loop_run interval runtime d fuel s).start_time := by
  intro fuel
  induction fuel with
  | zero => intro s h; simpa using h
  | succ n ih =>
    intro s h
    rw [loop_run]
    by_cases hc : s.now - s.start_time < runtime
    · rw [if_pos hc, loop_body_nonpos interval d s hI]
      apply ih
      simp only [tickAdvance]
      push_cast at h ⊢
      simp only [tick] at *
      linarith
    · rw [if_neg hc]
      linarith

/-- C5: with a zero or negative `refocus_interval` the accumulation loop
never invokes the refocus cycle no matter how long it runs, and the
elapsed accumulation time at exit lies within one poll tick of the
requested runtime. -/
theorem refocus_disabled_loop (interval runtime t0 : ℚ) (d : ℕ → ℚ) (fuel : ℕ)
    (hI : interval ≤ 0) (hR : 0 ≤ runtime) (hfuel : runtime ≤ (fuel : ℚ) * tick) :
    (loop_run interval runtime d fuel (loop_init t0)).refocus_count = 0 ∧
    runtime ≤ (loop_run interval runtime d fuel (loop_init t0)).now
      - (loop_run interval runtime d fuel (loop_init t0)).start_time ∧
    (loop_run interval runtime d fuel (loop_init t0)).now
      - (loop_run interval runtime d fuel (loop_init t0)).start_time
        < runtime + tick := by
  refine ⟨(loop_run_nonpos_frame interval runtime d hI fuel (loop_init t0)).1, ?_, ?_⟩
  · apply loop_run_nonpos_lb interval runtime d hI fuel (loop_init t0)
    simp [loop_init]
    linarith
  · apply loop_run_elapsed_ub interval runtime d fuel (loop_init t0)
    simp only [loop_init, tick]
    linarith

/-- Witness for C5: a disabled refocus interval, a one-second runtime and
two ticks of fuel. -/
theorem refocus_disabled_loop_witness :
    (0 : ℚ) ≤ 0 ∧ (0 : ℚ) ≤ 1 ∧ (1 : ℚ) ≤ ((2 : ℕ) : ℚ) * tick ∧
    ((loop_run 0 1 (fun _ => 3) 2 (loop_init 0)).refocus_count = 0 ∧
     (1 : ℚ) ≤ (loop_run 0 1 (fun _ => 3) 2 (loop_init 0)).now
       - (loop_run 0 1 (fun _ => 3) 2 (loop_init 0)).start_time ∧
     (loop_run 0 1 (fun _ => 3) 2 (loop_init 0)).now
       - (loop_run 0 1 (fun _ => 3) 2 (loop_init 0)).start_time < 1 + tick) :=
  ⟨le_refl 0, by norm_num, by norm_num [tick],
   refocus_disabled_loop 0 1 0 (fun _ => 3) 2 (le_refl 0) (by norm_num)
     (by norm_num [tick])⟩

theorem findLabel_spec (s : String) :
    ∀ (lst : List NV) (i : ℕ) (nv : NV), findLabel s lst = some (i, nv) →
      i < lst.length ∧ lst[i]? = some nv ∧ nv.label = s := by
  intro lst
  induction lst with
  | nil => intro i nv h; simp [findLabel] at h
  | cons a rest ih =>
    intro i nv h
    rw [findLabel] at h
    by_cases ha : a.label = s
    · rw [if_pos ha] at h
      simp only [Option.some.injEq, Prod.mk.injEq] at h
      obtain ⟨hi, hnv⟩ := h
      subst hi; subst hnv
      exact ⟨by simp, by simp, ha⟩
    · rw [if_neg ha] at h
      cases hf : findLabel s rest with
      | none => rw [hf] at h; simp at h
      | some p =>
        rw [hf] at h
        simp only [Option.map_some', Option.some.injEq] at h
        obtain ⟨hlt, hget, hlab⟩ := ih p.1 p.2 (by rw [hf])
        obtain ⟨h1, h2⟩ := Prod.mk.injEq .. ▸ h
        subst h1; subst h2
        refine ⟨by simpa using Nat.succ_lt_succ hlt, ?_, hlab⟩
        simpa using hget

theorem findLabel_eq_none (s : String) :
    ∀ (lst : List NV), (∀ nv ∈ lst, nv.label ≠ s) → findLabel s lst = none := by
  intro lst
  induction lst with
  | nil => intro _; rfl
  | cons a rest ih =>
    intro h
    rw [findLabel, if_neg (h a (by simp))]
    rw [ih (fun x hx => h x (by simp [hx]))]
    rfl

/-- C2: invoking `characterize_nv` on a registered target performs, in
order, a move to the target, a refocus, the Rabi run whose fitted
frequency is stored on the target as `rabi_period = 1/frequency` and
propagated into the shared `rabi_period` generation parameter before the
next stage, another refocus, and the Hahn-echo run whose fitted lifetime
is stored as the target `t2`; the registry entry afterwards carries both
fields set and non-null. -/
theorem characterize_pipeline (st : LogicState) (s : String) (i : ℕ) (nv : NV)
    (oracle : FitOracle) (hfind : findLabel s st.nv_list = some (i, nv))
    (hf : oracle.rabi_frequency ≠ 0) :
    (characterize_nv st (.byLabel s) oracle).2.1 =
      [.moveTo nv.position, .refocus, .runRabi s,
       .setSharedRabiPeriod (1 / oracle.rabi_frequency), .refocus, .runHahn s] ∧
    (characterize_nv st (.byLabel s) oracle).1.nv_list[i]? =
      some { nv with rabi_period := some (1 / oracle.rabi_frequency),
                     t2 := some oracle.hahn_lifetime } ∧
    ({ nv with rabi_period := some (1 / oracle.rabi_frequency),
               t2 := some oracle.hahn_lifetime } : NV).rabi_period ≠ none ∧
    ({ nv with rabi_period := some (1 / oracle.rabi_frequency),
               t2 := some oracle.hahn_lifetime } : NV).t2 ≠ none ∧
    (characterize_nv st (.byLabel s) oracle).1.gen_rabi_period =
      some (1 / oracle.rabi_frequency) ∧
    (characterize_nv st (.byLabel s) oracle).2.2 =
      .ok oracle.rabi_frequency oracle.hahn_lifetime := by
  have hlt : i < st.nv_list.length := (findLabel_spec s st.nv_list i nv hfind).1
  have hchar : characterize_nv st (.byLabel s) oracle = characterize_go st i nv s oracle := by
    rw [characterize_nv, hfind]
  rw [hchar, characterize_go, if_neg hf]
  refine ⟨rfl, ?_, by simp, by simp, rfl, rfl⟩
  exact List.getElem?_set_eq_of_lt _ hlt

/-- Witness for C2: a one-target registry and a Rabi fit frequency of 4. -/
theorem characterize_pipeline_witness :
    findLabel "NV1" [NV.mk0 ⟨0, 0, 0⟩ "NV1"] = some (0, NV.mk0 ⟨0, 0, 0⟩ "NV1") ∧
    ((4 : ℚ) ≠ 0) ∧
    (characterize_nv ⟨[NV.mk0 ⟨0, 0, 0⟩ "NV1"], none⟩ (.byLabel "NV1") ⟨4, 7⟩).2.1 =
      [.moveTo (NV.mk0 ⟨0, 0, 0⟩ "NV1").position, .refocus, .runRabi "NV1",
       .setSharedRabiPeriod (1 / 4), .refocus, .runHahn "NV1"] ∧
    (characterize_nv ⟨[NV.mk0 ⟨0, 0, 0⟩ "NV1"], none⟩ (.byLabel "NV1") ⟨4, 7⟩).1.nv_list[0]? =
      some { NV.mk0 ⟨0, 0, 0⟩ "NV1" with rabi_period := some (1 / 4), t2 := some 7 } := by
  have h := characterize_pipeline ⟨[NV.mk0 ⟨0, 0, 0⟩ "NV1"], none⟩ "NV1" 0
    (NV.mk0 ⟨0, 0, 0⟩ "NV1") ⟨4, 7⟩ (by rfl) (by norm_num)
  exact ⟨rfl, by norm_num, h.1, h.2.1⟩

/-- The claim of C7 fails on an out-of-range integer index: the call does
not return with a logged not-found condition; it raises `IndexError`
(here on an empty registry with index 0, before any logging or hardware
action). -/
theorem characterize_index_raises :
    characterize_nv ⟨[], none⟩ (.byIdx 0) ⟨1, 1⟩ = (⟨[], none⟩, [], .raised .indexError) ∧
    (characterize_nv ⟨[], none⟩ (.byIdx 0) ⟨1, 1⟩).2.2 ≠ .loggedError ∧
    Event.logError "NV with label not found." ∉ (characterize_nv ⟨[], none⟩ (.byIdx 0) ⟨1, 1⟩).2.1 := by
  refine ⟨rfl, ?_, by simp [characterize_nv, pyGet]⟩
  intro h
  rw [show characterize_nv ⟨[], none⟩ (.byIdx 0) ⟨1, 1⟩
      = (⟨[], none⟩, [], .raised .indexError) from rfl] at h
  exact CharOutcome.noConfusion h

/-- C7 amended: a string label absent from the registry makes the call
log a not-found error and return with no state change and no hardware
action; an integer index outside the registry bounds instead raises
`IndexError`, also before any state change or hardware action, but
without logging. -/
theorem characterize_not_found (st : LogicState) (s : String) (i : ℤ)
    (oracle : FitOracle) (hs : ∀ nv ∈ st.nv_list, nv.label ≠ s)
    (hi : pyGet st.nv_list i = none) :
    characterize_nv st (.byLabel s) oracle =
      (st, [.logError "NV with label not found."], .loggedError) ∧
    characterize_nv st (.byIdx i) oracle = (st, [], .raised .indexError) := by
  constructor
  · rw [characterize_nv, findLabel_eq_none s st.nv_list hs]
  · rw [characterize_nv, hi]

/-- Witness for amended C7 on a one-entry registry, a foreign label and
an out-of-range index. -/
theorem characterize_not_found_witness :
    (∀ nv ∈ [NV.mk0 ⟨1, 1, 1⟩ "a"], nv.label ≠ "b") ∧
    pyGet [NV.mk0 ⟨1, 1, 1⟩ "a"] 5 = none ∧
    characterize_nv ⟨[NV.mk0 ⟨1, 1, 1⟩ "a"], none⟩ (.byLabel "b") ⟨1, 1⟩ =
      (⟨[NV.mk0 ⟨1, 1, 1⟩ "a"], none⟩, [.logError "NV with label not found."], .loggedError) ∧
    characterize_nv ⟨[NV.mk0 ⟨1, 1, 1⟩ "a"], none⟩ (.byIdx 5) ⟨1, 1⟩ =
      (⟨[NV.mk0 ⟨1, 1, 1⟩ "a"], none⟩, [], .raised .indexError) := by
  have h := characterize_not_found ⟨[NV.mk0 ⟨1, 1, 1⟩ "a"], none⟩ "b" 5 ⟨1, 1⟩
    (by decide) (by rfl)
  exact ⟨by decide, by rfl, h.1, h.2⟩

end AutoMeas
